import Mathlib

/-!
Verification of the ComfyWUI generation-job tracking and reconciliation
subsystem, shallowly embedded from the frontend sources.

The embedding covers:
* the per-image selection model (`useImageSelection`, hooks),
* the localStorage sync hook (`useLocalStorageSync`),
* the per-workflow parameter-override filtering (`useLocalGeneration`,
  duplicated verbatim in `App.handleGenerate`),
* the local and Google AI job launchers (`useLocalGeneration`,
  `useGoogleAIGeneration`),
* cold-start resume (`App.loadGeneratingImages`),
* completion reconciliation (`App` `onComplete` / `onError` callbacks),
* the render-time de-duplication filter (`ImageGrid.filteredImages`),
* the WebSocket connection manager (`useWebSocketManager`), modelled as a
  state machine over an explicit socket table and the `wsMapRef` map.

JavaScript machine integers are IEEE doubles holding exact integers for all
quantities involved (timestamps, indices, page sizes), so they are embedded
as `Int`/`Nat`.  JavaScript `Map` objects are embedded as association lists,
`Set` objects as `Finset String`, `null`/`undefined` as `Option`, and thrown
exceptions as `Except`.
-/

namespace ComfyWUI

/-- Metadata of one produced artifact (`types/image.ts` `ImageMetadata`),
restricted to the fields the tracked subsystem reads: `id`, the originating
job id `prompt_id`, and `created_at` (embedded as the epoch value that
`new Date(created_at).getTime()` yields). -/
structure ImageMeta where
  id : String
  prompt_id : String
  created_at : Int
deriving DecidableEq, Repr

/-- A JSON value stored in the per-workflow parameter-override map
(`localStorage` key `parameterOverrides`).  `undef` models the JavaScript
`undefined` that the source's filter checks for explicitly. -/
inductive OvVal where
  | str (s : String)
  | num (n : Int)
  | boolean (b : Bool)
  | null
  | undef
deriving DecidableEq, Repr

/-- One tracked job placeholder (the objects held in the `generatingImages`
state of `App.tsx` and persisted under the `generatingImages` localStorage
key).  `imageData` is set by the reconciler on terminal success. -/
structure GeneratingImage where
  id : String
  prompt : String
  workflow_id : String
  workflow_name : String
  status : String
  progress : Option Int
  override_params : Option (List (String × OvVal))
  timestamp : Option Int
  imageData : Option ImageMeta
deriving DecidableEq, Repr

/-- Association-list lookup, embedding both JavaScript `Map.prototype.get`
and property access `obj[key]` on JSON objects. -/
def alGet {α : Type} (m : List (String × α)) (k : String) : Option α :=
  (m.find? (fun p => p.1 == k)).map Prod.snd

/-! ## Selection model (`useImageSelection`, hooks)

`toggleSelection` receives the clicked image id and the mouse event.  The
JavaScript `Array.prototype.findIndex` returns `-1` when the id is absent,
embedded here by `jsFindIndex`.  The shift branch runs
`for (let i = start; i <= end; i++) newSet.add(images[i].id)`; when any `i`
is outside `[0, images.length)`, `images[i]` is `undefined` and `.id` throws
a `TypeError`, embedded as `Except.error ()` (the thrown exception aborts
the state update, so no partial result is committed). -/

/-- JavaScript `images.findIndex(img => img.id === imageId)`. -/
def jsFindIndex (images : List ImageMeta) (imageId : String) : Int :=
  match images with
  | [] => -1
  | im :: rest =>
    if im.id = imageId then 0
    else
      let r := jsFindIndex rest imageId
      if r = -1 then -1 else r + 1

/-- The ids added by the shift-range loop `for (let i = a; i <= b; i++)
newSet.add(images[i].id)`, for in-bounds `a ≤ b`. -/
def rangeIds (images : List ImageMeta) (a b : Nat) : Finset String :=
  (((images.drop a).take (b + 1 - a)).map ImageMeta.id).toFinset

/-- One call of `toggleSelection(imageId, event)` from `useImageSelection`,
acting on the selection set and `lastClickedIndex`.  Returns the committed
`(selectedIds, lastClickedIndex)` pair, or `Except.error ()` when the range
loop dereferences an out-of-bounds index. -/
def toggleSelection (images : List ImageMeta) (selected : Finset String)
    (lastClicked : Option Int) (imageId : String) (shiftKey : Bool) :
    Except Unit (Finset String × Option Int) :=
  let clickedIndex : Int := jsFindIndex images imageId
  if shiftKey then
    match lastClicked with
    | some prevLastIndex =>
      let lo := min prevLastIndex clickedIndex
      let hi := max prevLastIndex clickedIndex
      if 0 ≤ lo ∧ hi < (images.length : Int) then
        Except.ok (selected ∪ rangeIds images lo.toNat hi.toNat, some clickedIndex)
      else
        Except.error ()
    | none => Except.ok (selected, some clickedIndex)
  else
    Except.ok
      ((if imageId ∈ selected then selected.erase imageId else insert imageId selected),
       some clickedIndex)

/-- A plain click on `firstId` followed by a shift-click on `secondId`,
both against the same materialized list (the scenario of the symmetry
property). -/
def clickThenShiftClick (images : List ImageMeta) (selected : Finset String)
    (firstId secondId : String) : Except Unit (Finset String × Option Int) :=
  match toggleSelection images selected none firstId false with
  | Except.error e => Except.error e
  | Except.ok (s1, l1) => toggleSelection images s1 l1 secondId true

theorem jsFindIndex_of_get (images : List ImageMeta)
    (hn : (images.map ImageMeta.id).Nodup) (i : Nat) (hi : i < images.length) :
    jsFindIndex images (images.get ⟨i, hi⟩).id = (i : Int) := by
  induction images generalizing i with
  | nil => exact absurd hi (by simp)
  | cons im rest ih =>
    rw [List.map_cons, List.nodup_cons] at hn
    cases i with
    | zero => simp [jsFindIndex]
    | succ n =>
      have hn2 : n < rest.length := by simpa using hi
      have hmem : (rest.get ⟨n, hn2⟩).id ∈ rest.map ImageMeta.id :=
        List.mem_map_of_mem _ (rest.get_mem _ _)
      have hne : ¬ im.id = (rest.get ⟨n, hn2⟩).id := fun h => hn.1 (h ▸ hmem)
      have hget : (im :: rest).get ⟨n + 1, hi⟩ = rest.get ⟨n, hn2⟩ := rfl
      rw [hget]
      have ihr := ih hn.2 n hn2
      simp only [jsFindIndex, hne, if_false, ihr]
      have hq : ¬ ((n : Int) = -1) := by omega
      simp only [hq, if_false]
      omega

theorem jsFindIndex_of_mem (images : List ImageMeta) (imageId : String)
    (h : ∃ im ∈ images, im.id = imageId) :
    ∃ q : Nat, q < images.length ∧ jsFindIndex images imageId = (q : Int) := by
  induction images with
  | nil => simp at h
  | cons im rest ih =>
    by_cases h0 : im.id = imageId
    · exact ⟨0, by simp, by simp [jsFindIndex, h0]⟩
    · have hrest : ∃ im2 ∈ rest, im2.id = imageId := by
        rcases h with ⟨x, hx, hid⟩
        rcases List.mem_cons.mp hx with hx0 | hx1
        · exact absurd (hx0 ▸ hid) h0
        · exact ⟨x, hx1, hid⟩
      rcases ih hrest with ⟨q, hq, hfi⟩
      refine ⟨q + 1, by simpa using Nat.succ_lt_succ hq, ?_⟩
      have hq1 : ¬ ((q : Int) = -1) := by omega
      simp only [jsFindIndex, h0, if_false, hfi, hq1]
      omega

theorem get_id_mem_rangeIds (images : List ImageMeta) (a b k : Nat)
    (hk : k < images.length) (hak : a ≤ k) (hkb : k ≤ b) :
    (images.get ⟨k, hk⟩).id ∈ rangeIds images a b := by
  have hlen : k - a < ((images.drop a).take (b + 1 - a)).length := by
    simp only [List.length_take, List.length_drop]
    omega
  have hget : ((images.drop a).take (b + 1 - a)).get ⟨k - a, hlen⟩ = images.get ⟨k, hk⟩ := by
    simp only [List.get_eq_getElem, List.getElem_take, List.getElem_drop]
    congr 1
    omega
  have hmem : images.get ⟨k, hk⟩ ∈ (images.drop a).take (b + 1 - a) := by
    rw [← hget]
    exact List.get_mem _ _ _
  simp only [rangeIds, List.mem_toFinset]
  exact List.mem_map_of_mem _ hmem

theorem toggle_union_eq (S R : Finset String) (a : String) (ha : a ∈ R) :
    (if a ∈ S then S.erase a else insert a S) ∪ R = S ∪ R := by
  by_cases hS : a ∈ S
  · rw [if_pos hS]
    ext x
    simp only [Finset.mem_union, Finset.mem_erase]
    constructor
    · rintro (⟨_, h2⟩ | h3)
      · exact Or.inl h2
      · exact Or.inr h3
    · rintro (h1 | h2)
      · by_cases hx : x = a
        · exact Or.inr (hx ▸ ha)
        · exact Or.inl ⟨hx, h1⟩
      · exact Or.inr h2
  · rw [if_neg hS]
    ext x
    simp only [Finset.mem_union, Finset.mem_insert]
    constructor
    · rintro ((h1 | h2) | h3)
      · exact Or.inr (h1 ▸ ha)
      · exact Or.inl h2
      · exact Or.inr h3
    · rintro (h1 | h2)
      · exact Or.inl (Or.inr h1)
      · exact Or.inr h2

theorem toggleSelection_shift_ok (images : List ImageMeta) (S : Finset String)
    (p q : Nat) (imageId : String)
    (hfi : jsFindIndex images imageId = (q : Int))
    (hp : p < images.length) (hq : q < images.length) :
    toggleSelection images S (some (p : Int)) imageId true =
      Except.ok (S ∪ rangeIds images (min p q) (max p q), some (q : Int)) := by
  have h1 : (min (p : Int) (q : Int)).toNat = min p q := by omega
  have h2 : (max (p : Int) (q : Int)).toNat = max p q := by omega
  have hcond : 0 ≤ min (p : Int) (q : Int) ∧ max (p : Int) (q : Int) < (images.length : Int) := by
    constructor <;> omega
  simp only [toggleSelection, hfi, if_true]
  rw [if_pos hcond, h1, h2]

/-- Concrete artifact records used to instantiate theorems. -/
def imgA : ImageMeta := { id := "a", prompt_id := "pa", created_at := 3 }

/-- Second concrete artifact record. -/
def imgB : ImageMeta := { id := "b", prompt_id := "pb", created_at := 2 }

/-- Third concrete artifact record. -/
def imgC : ImageMeta := { id := "c", prompt_id := "pc", created_at := 1 }

/-- Claim C8: shift-click range selection is symmetric.  For two indices `i`
and `j` of items present in the current materialized list, clicking the item
at index `i` then shift-clicking the item at index `j` commits the same
selected set as the two clicks in the opposite order (both yield the old
selection united with the ids of the inclusive contiguous index range), and
neither order faults. -/
theorem shiftClick_range_symmetric (images : List ImageMeta) (S : Finset String)
    (i j : Nat) (hi : i < images.length) (hj : j < images.length)
    (hn : (images.map ImageMeta.id).Nodup) :
    (clickThenShiftClick images S (images.get ⟨i, hi⟩).id (images.get ⟨j, hj⟩).id).map Prod.fst
      = (clickThenShiftClick images S (images.get ⟨j, hj⟩).id (images.get ⟨i, hi⟩).id).map Prod.fst
    ∧ ∀ e, clickThenShiftClick images S (images.get ⟨i, hi⟩).id (images.get ⟨j, hj⟩).id
        ≠ Except.error e := by
  have hfi := jsFindIndex_of_get images hn i hi
  have hfj := jsFindIndex_of_get images hn j hj
  have hstep1 : ∀ a : String, toggleSelection images S none a false =
      Except.ok ((if a ∈ S then S.erase a else insert a S), some (jsFindIndex images a)) :=
    fun a => rfl
  have hrun1 : clickThenShiftClick images S (images.get ⟨i, hi⟩).id (images.get ⟨j, hj⟩).id =
      Except.ok (S ∪ rangeIds images (min i j) (max i j), some (j : Int)) := by
    rw [clickThenShiftClick, hstep1, hfi]
    exact (toggleSelection_shift_ok images _ i j _ hfj hi hj).trans
      (by rw [toggle_union_eq S _ _ (get_id_mem_rangeIds images (min i j) (max i j) i hi
        (Nat.min_le_left i j) (Nat.le_max_left i j))])
  have hrun2 : clickThenShiftClick images S (images.get ⟨j, hj⟩).id (images.get ⟨i, hi⟩).id =
      Except.ok (S ∪ rangeIds images (min j i) (max j i), some (i : Int)) := by
    rw [clickThenShiftClick, hstep1, hfj]
    exact (toggleSelection_shift_ok images _ j i _ hfi hj hi).trans
      (by rw [toggle_union_eq S _ _ (get_id_mem_rangeIds images (min j i) (max j i) j hj
        (Nat.min_le_left j i) (Nat.le_max_left j i))])
  constructor
  · rw [hrun1, hrun2, Nat.min_comm j i, Nat.max_comm j i]
    rfl
  · intro e
    rw [hrun1]
    exact fun h => Except.noConfusion h

/-- Witness for C8 at a concrete list: clicking "a" (index 0) then
shift-clicking "c" (index 2) selects the same set as the opposite order. -/
theorem shiftClick_range_symmetric_witness :
    (([imgA, imgB, imgC].map ImageMeta.id).Nodup) ∧
    (clickThenShiftClick [imgA, imgB, imgC] ∅ "a" "c").map Prod.fst
      = (clickThenShiftClick [imgA, imgB, imgC] ∅ "c" "a").map Prod.fst :=
  ⟨by decide,
   (shiftClick_range_symmetric [imgA, imgB, imgC] ∅ 0 2 (by decide) (by decide) (by decide)).1⟩

/-- Claim C10 counterexample: shift-clicking an id absent from the list
("zzz") while `lastClickedIndex` is set makes the range loop start at
`findIndex`'s `-1`, so `images[-1].id` is dereferenced and the call faults
rather than being total. -/
theorem toggleSelection_oob_counterexample :
    toggleSelection [imgA] ∅ (some 0) "zzz" true = Except.error () := rfl

/-- Claim C10 amended: `toggleSelection` stays within bounds whenever shift
is not held, or no previous click is recorded, or the recorded index is a
valid index of the current list and the clicked id is present in it.
Shift-clicking an absent id while `lastClickedIndex` is set dereferences
index `-1` (see the counterexample), so the unrestricted claim fails. -/
theorem toggleSelection_safe_cases (images : List ImageMeta) (S : Finset String)
    (lastClicked : Option Int) (imageId : String) (shiftKey : Bool)
    (hsafe : shiftKey = false ∨ lastClicked = none ∨
      (∃ p : Nat, lastClicked = some (p : Int) ∧ p < images.length ∧
        ∃ im ∈ images, im.id = imageId)) :
    ∀ e, toggleSelection images S lastClicked imageId shiftKey ≠ Except.error e := by
  intro e
  rcases hsafe with hs | hl | ⟨p, hl, hp, hpresent⟩
  · subst hs
    exact fun h => Except.noConfusion h
  · subst hl
    cases shiftKey <;> exact fun h => Except.noConfusion h
  · subst hl
    cases shiftKey with
    | false => exact fun h => Except.noConfusion h
    | true =>
      rcases jsFindIndex_of_mem images imageId hpresent with ⟨q, hq, hfi⟩
      rw [toggleSelection_shift_ok images S p q imageId hfi hp hq]
      exact fun h => Except.noConfusion h

/-- Witness for the amended C10: a concrete in-bounds shift-click does not
fault. -/
theorem toggleSelection_safe_cases_witness :
    toggleSelection [imgA] ∅ (some 0) "a" true ≠ Except.error () :=
  toggleSelection_safe_cases [imgA] ∅ (some 0) "a" true
    (Or.inr (Or.inr ⟨0, rfl, by decide, imgA, by decide, rfl⟩)) ()

/-! ## Job launchers (`useLocalGeneration`, `useGoogleAIGeneration`, hooks)

`useLocalGeneration.generate` reads the `parameterOverrides` localStorage
key, JSON-parses it, projects the entry for the selected workflow and drops
every override whose value is `''`, `null` or `undefined`; when nothing
survives the override map is set back to `null`.  `App.handleGenerate`
repeats the identical computation before `wsManager.connect`; both sites
are embedded by `loadOverrideParams`. -/

/-- The source's override filter condition
`value !== '' && value !== null && value !== undefined`. -/
def keepOverride (v : OvVal) : Bool :=
  !(v == OvVal.str "") && !(v == OvVal.null) && !(v == OvVal.undef)

/-- Projection and filtering of the per-workflow override entry
(`if (workflowOverrides) { ... }` in `useLocalGeneration.generate`). -/
def filterWorkflowOverrides (workflowOverrides : Option (List (String × OvVal))) :
    Option (List (String × OvVal)) :=
  match workflowOverrides with
  | none => none
  | some kvs =>
    let filtered := kvs.filter (fun kv => keepOverride kv.2)
    if filtered.isEmpty then none else some filtered

/-- The whole override-map load: `saved = none` embeds an absent
`parameterOverrides` key, `some (Except.error ())` a JSON.parse failure
(caught and logged, leaving the override map `null`), and
`some (Except.ok allOverrides)` the parsed per-workflow table. -/
def loadOverrideParams
    (saved : Option (Except Unit (List (String × List (String × OvVal)))))
    (workflowId : String) : Option (List (String × OvVal)) :=
  match saved with
  | none => none
  | some (Except.error _) => none
  | some (Except.ok allOverrides) => filterWorkflowOverrides (alGet allOverrides workflowId)

/-- The local submit request body (`types/generation.ts` `GenerationRequest`). -/
structure GenerationRequest where
  workflow_id : String
  prompt : String
  override_params : Option (List (String × OvVal))
  save_to_disk : Bool
  image_filename : Option String
deriving DecidableEq, Repr

/-- The local submit response (`types/generation.ts` `GenerationResponse`). -/
structure GenerationResponse where
  prompt_id : String
  workflow_id : String
  status : String
  message : Option String
deriving DecidableEq, Repr

/-- What one call of `useLocalGeneration.generate` produces: the request it
sent (if any), the placeholder handed to `onGenerationStart` (if any), the
message passed to `onError` (if any), and the returned prompt id. -/
structure LocalGenResult where
  request : Option GenerationRequest
  placeholderCreated : Option GeneratingImage
  errorMsg : Option String
  promptId : Option String
deriving DecidableEq, Repr

/-- JavaScript template interpolation of a possibly-undefined string. -/
def jsTemplate (s : Option String) : String :=
  match s with
  | some v => v
  | none => "undefined"

/-- JavaScript `s || dflt` for a string `s` (empty string is falsy). -/
def jsOrString (s dflt : String) : String :=
  if s == "" then dflt else s

/-- Drop leading whitespace characters. -/
def dropLeadingWs : List Char → List Char
  | [] => []
  | c :: rest => if c.isWhitespace then dropLeadingWs rest else c :: rest

/-- JavaScript `String.prototype.trim`, embedded over the character list
(drop whitespace from both ends). -/
def jsTrim (s : String) : String :=
  ⟨(dropLeadingWs (dropLeadingWs s.data).reverse).reverse⟩

/-- One call of `useLocalGeneration.generate`.  `workflows` carries the
`(id, name)` projection of the workflow list (only those fields are read);
`outcome` is the settled result of `generationService.generate` —
`Except.error` embeds a thrown/network error, `Except.ok` a response. -/
def localGenerate (workflows : List (String × String)) (workflowId promptText : String)
    (uploadedImageFile : Option String)
    (saved : Option (Except Unit (List (String × List (String × OvVal)))))
    (outcome : Except String GenerationResponse) (now : Int) : LocalGenResult :=
  if workflowId == "" then
    { request := none, placeholderCreated := none,
      errorMsg := some "Please select a workflow", promptId := none }
  else
    let overrideParams := loadOverrideParams saved workflowId
    let req : GenerationRequest :=
      { workflow_id := workflowId, prompt := promptText,
        override_params := overrideParams, save_to_disk := true,
        image_filename := uploadedImageFile }
    match outcome with
    | Except.error msg =>
      { request := some req, placeholderCreated := none,
        errorMsg := some ("Generation failed: " ++ msg), promptId := none }
    | Except.ok resp =>
      if resp.status == "failed" then
        { request := some req, placeholderCreated := none,
          errorMsg := some ("Generation failed: " ++ jsTemplate resp.message),
          promptId := none }
      else
        let workflowName := ((workflows.find? (fun w => w.1 == workflowId)).map Prod.snd).getD "Unknown"
        { request := some req,
          placeholderCreated := some
            { id := resp.prompt_id, prompt := promptText, workflow_id := workflowId,
              workflow_name := workflowName, status := "queued", progress := some 0,
              override_params := overrideParams, timestamp := some now,
              imageData := none },
          errorMsg := none, promptId := some resp.prompt_id }

/-- The Google AI submit response (`googleAiService.ts`
`GoogleAIGenerateResponse`). -/
structure GoogleAIGenerateResponse where
  status : String
  message : String
  image_id : Option String
deriving DecidableEq, Repr

/-- What one call of `useGoogleAIGeneration.generate` produces:
`placeholderCreated` is the loading card handed to `onGenerationStart`,
`generationFailed`/`generationComplete` the payloads of the respective
callbacks, `errorMsg` the message passed to `onError`. -/
structure GoogleGenResult where
  placeholderCreated : Option GeneratingImage
  generationFailed : Option (String × String)
  generationComplete : Option (String × ImageMeta)
  errorMsg : Option String
deriving DecidableEq, Repr

/-- One call of `useGoogleAIGeneration.generate`.  The placeholder is built
and handed to `onGenerationStart` before the backend call is awaited;
`outcome` is the settled result of `googleAiService.generate` and
`fetchOutcome` that of the follow-up `imageService.list` fetch. -/
def googleGenerate (models : List (String × String)) (promptText modelId : String)
    (tempId : String) (now : Int)
    (outcome : Except String GoogleAIGenerateResponse)
    (fetchOutcome : Except Unit (List ImageMeta)) : GoogleGenResult :=
  if jsTrim promptText == "" then
    { placeholderCreated := none, generationFailed := none,
      generationComplete := none, errorMsg := some "Please enter a prompt" }
  else
    let modelName := ((models.find? (fun m => m.1 == modelId)).map Prod.snd).getD "Google"
    let newGeneratingImage : GeneratingImage :=
      { id := tempId, prompt := promptText, workflow_id := "google_ai",
        workflow_name := modelName, status := "processing", progress := some 0,
        override_params := none, timestamp := some now, imageData := none }
    match outcome with
    | Except.error msg =>
      { placeholderCreated := some newGeneratingImage,
        generationFailed := some (tempId, jsOrString msg "Generation failed"),
        generationComplete := none,
        errorMsg := some ("Generation failed: " ++ msg) }
    | Except.ok resp =>
      if resp.status == "failed" then
        { placeholderCreated := some newGeneratingImage,
          generationFailed := some (tempId, jsOrString resp.message "Generation failed"),
          generationComplete := none,
          errorMsg := some ("Generation failed: " ++ resp.message) }
      else
        match fetchOutcome with
        | Except.error _ =>
          { placeholderCreated := some newGeneratingImage,
            generationFailed := some (tempId, "Failed to retrieve generated image"),
            generationComplete := none, errorMsg := none }
        | Except.ok imgs =>
          match imgs.find? (fun im => resp.image_id == some im.id) with
          | some newImage =>
            { placeholderCreated := some newGeneratingImage,
              generationFailed := none,
              generationComplete := some (tempId, newImage), errorMsg := none }
          | none =>
            { placeholderCreated := some newGeneratingImage,
              generationFailed := some (tempId, "Image not found after generation"),
              generationComplete := none, errorMsg := none }

/-- Claim C9: on a local-backend submit, the per-workflow override map
loaded from persistent storage is filtered so that every override whose
value is the empty string, `null` or `undefined` is dropped before
transmission; when no override survives, the transmitted override field is
`null`; and the submitted request carries exactly this filtered map. -/
theorem overrides_filtered_before_transmission
    (allOverrides : List (String × List (String × OvVal))) (workflowId : String)
    (kvs : List (String × OvVal))
    (hlook : alGet allOverrides workflowId = some kvs) :
    (∀ res, loadOverrideParams (some (Except.ok allOverrides)) workflowId = some res →
        res = kvs.filter (fun kv => keepOverride kv.2) ∧
        ∀ kv ∈ res, ¬ kv.2 = OvVal.str "" ∧ ¬ kv.2 = OvVal.null ∧ ¬ kv.2 = OvVal.undef)
    ∧ (loadOverrideParams (some (Except.ok allOverrides)) workflowId = none ↔
        kvs.filter (fun kv => keepOverride kv.2) = [])
    ∧ (∀ workflows promptText up outcome now req,
        (localGenerate workflows workflowId promptText up
            (some (Except.ok allOverrides)) outcome now).request = some req →
        req.override_params = loadOverrideParams (some (Except.ok allOverrides)) workflowId) := by
  have hload : loadOverrideParams (some (Except.ok allOverrides)) workflowId =
      (if (kvs.filter (fun kv => keepOverride kv.2)).isEmpty then none
       else some (kvs.filter (fun kv => keepOverride kv.2))) := by
    simp [loadOverrideParams, filterWorkflowOverrides, hlook]
  refine ⟨?_, ?_, ?_⟩
  · intro res hres
    rw [hload] at hres
    by_cases hemp : (kvs.filter (fun kv => keepOverride kv.2)).isEmpty
    · rw [if_pos hemp] at hres
      exact absurd hres (fun h => Option.noConfusion h)
    · rw [if_neg hemp] at hres
      have hres2 := Option.some.inj hres
      subst hres2
      refine ⟨rfl, ?_⟩
      intro kv hkv
      have hkeep : keepOverride kv.2 = true := (List.mem_filter.mp hkv).2
      simp only [keepOverride, Bool.and_eq_true, Bool.not_eq_true', beq_eq_false_iff_ne,
        ne_eq] at hkeep
      exact ⟨hkeep.1.1, hkeep.1.2, hkeep.2⟩
  · rw [hload]
    by_cases hemp : (kvs.filter (fun kv => keepOverride kv.2)).isEmpty
    · simp [hemp, List.isEmpty_iff.mp hemp]
    · simp only [if_neg hemp]
      constructor
      · exact fun h => Option.noConfusion h
      · intro h
        exact absurd (List.isEmpty_iff.mpr h) hemp
  · intro workflows promptText up outcome now req hreq
    by_cases hwid : workflowId == ""
    · simp only [localGenerate, hwid, if_true] at hreq
      exact absurd hreq (fun h => Option.noConfusion h)
    · simp only [localGenerate, hwid, Bool.false_eq_true, if_false] at hreq
      cases outcome with
      | error msg =>
        have := Option.some.inj hreq
        subst this
        rfl
      | ok resp =>
        by_cases hst : resp.status == "failed"
        · simp only [hst, if_true] at hreq
          have := Option.some.inj hreq
          subst this
          rfl
        · simp only [hst, Bool.false_eq_true, if_false] at hreq
          have := Option.some.inj hreq
          subst this
          rfl

/-- Witness for C9: the override table `{w1: {steps: 20, cfg: "", seed:
null, extra: undefined}}` is transmitted as `{steps: 20}`. -/
theorem overrides_filtered_witness :
    loadOverrideParams
        (some (Except.ok [("w1", [("steps", OvVal.num 20), ("cfg", OvVal.str ""),
          ("seed", OvVal.null), ("extra", OvVal.undef)])])) "w1" =
      some [("steps", OvVal.num 20)] ∧
    ¬ (OvVal.num 20) = OvVal.str "" := by
  have h := (overrides_filtered_before_transmission
      [("w1", [("steps", OvVal.num 20), ("cfg", OvVal.str ""),
        ("seed", OvVal.null), ("extra", OvVal.undef)])] "w1"
      [("steps", OvVal.num 20), ("cfg", OvVal.str ""),
        ("seed", OvVal.null), ("extra", OvVal.undef)] rfl).1
      [("steps", OvVal.num 20)] rfl
  exact ⟨rfl, (h.2 ("steps", OvVal.num 20) (by decide)).1⟩

/-- A concrete rejected Google submit: non-empty prompt, backend call
throws a network error. -/
def googleRejectedRun : GoogleGenResult :=
  googleGenerate [] "a cat" "gemini-2.5-flash-image" "google_1" 0
    (Except.error "network down") (Except.error ())

/-- Claim C5 counterexample: on the remote (Google AI) backend a submit
whose backend call is rejected has already created and published a Job
Placeholder (handed to `onGenerationStart` before the call), so the tracked
placeholder list is not left unchanged by the failed submit. -/
theorem claim_c5_counterexample :
    googleRejectedRun.errorMsg = some "Generation failed: network down" ∧
    ¬ googleRejectedRun.placeholderCreated = none := by
  constructor
  · rfl
  · intro h
    exact Option.noConfusion h

/-- Claim C5 amended: on the local backend a rejected submit (network
failure or backend-reported failure) never creates a placeholder, returns
no prompt id, and surfaces an error; on the remote backend the placeholder
is created before the backend call, so a rejected call leaves it created,
reports it to the failure callback, and surfaces an error. -/
theorem submit_rejected_behavior
    (workflows : List (String × String)) (workflowId promptText : String)
    (up : Option String)
    (saved : Option (Except Unit (List (String × List (String × OvVal)))))
    (now : Int) (models : List (String × String)) (gPrompt modelId tempId : String)
    (gNow : Int) (outcome : Except String GenerationResponse)
    (gOutcome : Except String GoogleAIGenerateResponse)
    (fetch2 : Except Unit (List ImageMeta))
    (hrej : (∃ m, outcome = Except.error m) ∨
      ∃ r, outcome = Except.ok r ∧ r.status = "failed")
    (hgrej : (∃ m, gOutcome = Except.error m) ∨
      ∃ r, gOutcome = Except.ok r ∧ r.status = "failed")
    (hgp : ¬ jsTrim gPrompt = "") :
    ((localGenerate workflows workflowId promptText up saved outcome now).placeholderCreated = none
      ∧ (localGenerate workflows workflowId promptText up saved outcome now).promptId = none
      ∧ (localGenerate workflows workflowId promptText up saved outcome now).errorMsg.isSome = true)
    ∧ ((googleGenerate models gPrompt modelId tempId gNow gOutcome fetch2).placeholderCreated.isSome = true
      ∧ (googleGenerate models gPrompt modelId tempId gNow gOutcome fetch2).generationFailed.isSome = true
      ∧ (googleGenerate models gPrompt modelId tempId gNow gOutcome fetch2).errorMsg.isSome = true) := by
  constructor
  · by_cases hwid : workflowId == ""
    · simp [localGenerate, hwid]
    · rcases hrej with ⟨m, hm⟩ | ⟨r, hr, hst⟩
      · subst hm
        simp [localGenerate, hwid]
      · subst hr
        have hst2 : r.status == "failed" := by simp [hst]
        simp [localGenerate, hwid, hst2]
  · have hgp2 : ¬ (jsTrim gPrompt == "") = true := by
      intro h
      exact hgp (by simpa using h)
    rcases hgrej with ⟨m, hm⟩ | ⟨r, hr, hst⟩
    · subst hm
      simp [googleGenerate, hgp2]
    · subst hr
      have hst2 : r.status == "failed" := by simp [hst]
      simp [googleGenerate, hgp2, hst2]

/-- Witness for the amended C5 at concrete rejected submits on both
backends. -/
theorem submit_rejected_behavior_witness :
    (localGenerate [] "w1" "sunset" none none (Except.error "boom") 5).placeholderCreated = none ∧
    (googleGenerate [] "a cat" "m" "g1" 0 (Except.error "boom") (Except.error ())).generationFailed.isSome = true :=
  ⟨(submit_rejected_behavior [] "w1" "sunset" none none 5 [] "a cat" "m" "g1" 0
      (Except.error "boom") (Except.error "boom") (Except.error ())
      (Or.inl ⟨"boom", rfl⟩) (Or.inl ⟨"boom", rfl⟩) (by decide)).1.1,
   (submit_rejected_behavior [] "w1" "sunset" none none 5 [] "a cat" "m" "g1" 0
      (Except.error "boom") (Except.error "boom") (Except.error ())
      (Or.inl ⟨"boom", rfl⟩) (Or.inl ⟨"boom", rfl⟩) (by decide)).2.2.1⟩

/-! ## Completion reconciliation (`App.tsx`, `onComplete` / `onError`
callbacks of `useWebSocketManager`)

On a `completed` channel message, `onComplete` fetches page 1 (size 50) of
the artifact history once and scans it for a record whose `prompt_id`
matches the job.  The three branches (found / not found / fetch threw) are
embedded below; `removalsScheduled` records the `setTimeout` evictions
`(id, delay in ms)` and `extraFetches` any further history fetches issued
(there are none — the reconciler never retries). -/

/-- The user-visible message of the reconciliation-not-found branch. -/
def notFoundMessage : String :=
  "Failed to retrieve generated image. Please check your images list."

/-- The user-visible message of the channel-error branch
(`onError` callback: template `Generation failed: ${error}`). -/
def channelFailureMessage (e : String) : String :=
  "Generation failed: " ++ e

/-- The effects of one reconciliation or channel-error callback. -/
structure ReconcileOutcome where
  generating : List GeneratingImage
  prepended : Option ImageMeta
  errorMsg : Option String
  removalsScheduled : List (String × Int)
  extraFetches : List (Int × Int)
deriving DecidableEq, Repr

/-- The `onComplete` callback of `App.tsx`, applied to the settled result
of its single `imageService.list({page: 1, page_size: 50})` fetch. -/
def onCompleteHandler (promptId : String) (fetched : Except Unit (List ImageMeta))
    (generating : List GeneratingImage) : ReconcileOutcome :=
  match fetched with
  | Except.error _ =>
    { generating := generating.filter (fun g => !(g.id == promptId)),
      prepended := none, errorMsg := none,
      removalsScheduled := [], extraFetches := [] }
  | Except.ok imgs =>
    match imgs.find? (fun im => im.prompt_id == promptId) with
    | some newImage =>
      { generating := generating.map (fun g =>
          if g.id == promptId then
            { g with status := "completed", imageData := some newImage }
          else g),
        prepended := some newImage, errorMsg := none,
        removalsScheduled := [(promptId, 5000)], extraFetches := [] }
    | none =>
      { generating := generating.map (fun g =>
          if g.id == promptId then { g with status := "failed" } else g),
        prepended := none, errorMsg := some notFoundMessage,
        removalsScheduled := [(promptId, 3000)], extraFetches := [] }

/-- The `onError` callback of `App.tsx` (terminal channel failure). -/
def onErrorHandler (promptId errText : String)
    (generating : List GeneratingImage) : ReconcileOutcome :=
  { generating := generating.map (fun g =>
      if g.id == promptId then { g with status := "failed" } else g),
    prepended := none, errorMsg := some (channelFailureMessage errText),
    removalsScheduled := [(promptId, 2000)], extraFetches := [] }

theorem notFound_ne_channelFailure (e : String) :
    ¬ notFoundMessage = channelFailureMessage e := by
  intro h
  have h2 : notFoundMessage.data.head? = (channelFailureMessage e).data.head? := by rw [h]
  have hL : notFoundMessage.data.head? = some 'F' := rfl
  have hR : (channelFailureMessage e).data.head? = some 'G' := rfl
  rw [hL, hR] at h2
  exact absurd (Option.some.inj h2) (by decide)

/-- Claim C6: when the reconciliation fetch after a reported completion
contains no artifact whose `prompt_id` matches the job id, the placeholder
is forced to FAILED, a user-visible message distinct from every
channel-error failure message is surfaced, removal is scheduled after a
3-second grace period, and no further fetch is issued (no retry). -/
theorem reconciliation_not_found (promptId : String) (imgs : List ImageMeta)
    (generating : List GeneratingImage)
    (hnone : ∀ im ∈ imgs, ¬ im.prompt_id = promptId) :
    (onCompleteHandler promptId (Except.ok imgs) generating).generating
      = generating.map (fun g => if g.id == promptId then { g with status := "failed" } else g)
    ∧ (∀ g ∈ (onCompleteHandler promptId (Except.ok imgs) generating).generating,
        g.id = promptId → g.status = "failed")
    ∧ (onCompleteHandler promptId (Except.ok imgs) generating).errorMsg = some notFoundMessage
    ∧ (∀ e, ¬ notFoundMessage = channelFailureMessage e)
    ∧ (onCompleteHandler promptId (Except.ok imgs) generating).removalsScheduled = [(promptId, 3000)]
    ∧ (onCompleteHandler promptId (Except.ok imgs) generating).extraFetches = [] := by
  have hfind : imgs.find? (fun im => im.prompt_id == promptId) = none := by
    rw [List.find?_eq_none]
    intro im him
    simpa using hnone im him
  have hout : onCompleteHandler promptId (Except.ok imgs) generating =
      { generating := generating.map (fun g =>
          if g.id == promptId then { g with status := "failed" } else g),
        prepended := none, errorMsg := some notFoundMessage,
        removalsScheduled := [(promptId, 3000)], extraFetches := [] } := by
    simp [onCompleteHandler, hfind]
  refine ⟨by rw [hout], ?_, by rw [hout], notFound_ne_channelFailure, by rw [hout], by rw [hout]⟩
  intro g hg hid
  rw [hout] at hg
  rcases List.mem_map.mp hg with ⟨g0, _, hg0⟩
  by_cases h0 : g0.id == promptId
  · rw [if_pos h0] at hg0
    rw [← hg0]
  · rw [if_neg h0] at hg0
    rw [← hg0] at hid
    exact absurd (by simp [hid]) h0

/-- A concrete in-flight placeholder used in witnesses. -/
def phProcessing : GeneratingImage :=
  { id := "p1", prompt := "sunset", workflow_id := "w1", workflow_name := "W",
    status := "processing", progress := some 40, override_params := none,
    timestamp := some 1000, imageData := none }

/-- Witness for C6 at a concrete race: page 1 holds only an artifact of a
different job, so the placeholder fails with the not-found message, which
differs from the channel-error message for "OOM". -/
theorem reconciliation_not_found_witness :
    (onCompleteHandler "p1" (Except.ok [imgB]) [phProcessing]).errorMsg
      = some notFoundMessage ∧
    ¬ notFoundMessage = channelFailureMessage "OOM" :=
  ⟨(reconciliation_not_found "p1" [imgB] [phProcessing] (by decide)).2.2.1,
   (reconciliation_not_found "p1" [imgB] [phProcessing] (by decide)).2.2.2.1 "OOM"⟩

/-! ## Render-time de-duplication (`ImageGrid.tsx`)

The grid renders one card per placeholder (a placeholder with status
`completed` and resolved `imageData` renders that artifact) followed by the
historical stream filtered by `filteredImages`, which drops every completed
image already shown through a resolved placeholder. -/

/-- The `filteredImages` computation of `ImageGrid.tsx`. -/
def filteredImages (generatingImages : List GeneratingImage)
    (completedImages : List ImageMeta) : List ImageMeta :=
  completedImages.filter (fun img =>
    !(generatingImages.any (fun genImg =>
      genImg.status == "completed" &&
        (match genImg.imageData with
         | some d => d.id == img.id
         | none => false))))

/-- The artifact ids rendered through resolved placeholder slots (the
`img.status === 'completed' && img.imageData` render branch). -/
def resolvedArtifactIds (generatingImages : List GeneratingImage) : List String :=
  generatingImages.filterMap (fun g =>
    if g.status == "completed" then g.imageData.map ImageMeta.id else none)

/-- All artifact ids visible in the grid: resolved placeholder slots first,
then the filtered historical stream. -/
def visibleArtifactIds (generatingImages : List GeneratingImage)
    (completedImages : List ImageMeta) : List String :=
  resolvedArtifactIds generatingImages
    ++ (filteredImages generatingImages completedImages).map ImageMeta.id

theorem mem_resolvedArtifactIds (gen : List GeneratingImage) (a : String) :
    a ∈ resolvedArtifactIds gen ↔
      ∃ g ∈ gen, g.status = "completed" ∧ ∃ d, g.imageData = some d ∧ d.id = a := by
  unfold resolvedArtifactIds
  rw [List.mem_filterMap]
  constructor
  · rintro ⟨g, hg, hfg⟩
    by_cases hst : g.status == "completed"
    · rw [if_pos hst] at hfg
      rcases Option.map_eq_some'.mp hfg with ⟨d, hd, hid⟩
      exact ⟨g, hg, by simpa using hst, d, hd, hid⟩
    · rw [if_neg hst] at hfg
      exact absurd hfg (fun h => Option.noConfusion h)
  · rintro ⟨g, hg, hst, d, hd, hid⟩
    refine ⟨g, hg, ?_⟩
    rw [if_pos (by simp [hst]), hd]
    simpa using hid

theorem count_map_id_filter (completed : List ImageMeta) (p : ImageMeta → Bool)
    (b : String) (h : ∀ img ∈ completed, img.id = b → p img = true) :
    ((completed.filter p).map ImageMeta.id).count b
      = (completed.map ImageMeta.id).count b := by
  induction completed with
  | nil => rfl
  | cons c t ih =>
    have ht : ∀ img ∈ t, img.id = b → p img = true :=
      fun img h1 h2 => h img (List.mem_cons_of_mem _ h1) h2
    by_cases hp : p c
    · simp only [List.filter_cons, hp, if_true, List.map_cons, List.count_cons, ih ht]
    · have hcb : ¬ c.id = b := fun hcb => hp (h c (List.mem_cons_self _ _) hcb)
      simp only [List.filter_cons, hp, Bool.false_eq_true, if_false, List.map_cons,
        List.count_cons, ih ht]
      simp [hcb]

/-- Claim C2: an artifact id held by a resolved (status `completed`) Job
Placeholder is filtered out of the plain historical stream and appears
exactly once in the visible list (through the placeholder slot); an id not
held by any resolved placeholder passes through the historical stream
unfiltered — so the two views are mutually exclusive per id until the
placeholder is evicted. -/
theorem resolved_artifact_not_duplicated (gen : List GeneratingImage)
    (completed : List ImageMeta) (a : String)
    (ha : a ∈ resolvedArtifactIds gen) (hn : (resolvedArtifactIds gen).Nodup) :
    ¬ a ∈ (filteredImages gen completed).map ImageMeta.id
    ∧ (visibleArtifactIds gen completed).count a = 1
    ∧ ∀ b, ¬ b ∈ resolvedArtifactIds gen →
        ((filteredImages gen completed).map ImageMeta.id).count b
          = (completed.map ImageMeta.id).count b := by
  rcases (mem_resolvedArtifactIds gen a).mp ha with ⟨g, hg, hst, d, hd, hid⟩
  have hnotmem : ¬ a ∈ (filteredImages gen completed).map ImageMeta.id := by
    intro hmem
    rcases List.mem_map.mp hmem with ⟨img, himg, himgid⟩
    have hkeep := (List.mem_filter.mp himg).2
    rw [Bool.not_eq_eq_eq_not, Bool.not_true, List.any_eq_false] at hkeep
    apply hkeep g hg
    rw [hd]
    simp [hst, hid, himgid]
  refine ⟨hnotmem, ?_, ?_⟩
  · rw [visibleArtifactIds, List.count_append,
      List.count_eq_one_of_mem hn ha, List.count_eq_zero.mpr hnotmem]
  · intro b hb
    apply count_map_id_filter
    intro img himg himgid
    rw [Bool.not_eq_eq_eq_not, Bool.not_true, List.any_eq_false]
    intro g2 hg2
    intro hcond
    rw [Bool.and_eq_true] at hcond
    apply hb
    rw [mem_resolvedArtifactIds]
    rcases hmatch : g2.imageData with _ | d2
    · rw [hmatch] at hcond
      exact absurd hcond.2 (by simp)
    · rw [hmatch] at hcond
      refine ⟨g2, hg2, by simpa using hcond.1, d2, hmatch, ?_⟩
      have := hcond.2
      simp only [beq_iff_eq] at this
      rw [this, himgid]

/-- A resolved placeholder holding artifact `imgA`, used in witnesses. -/
def phResolved : GeneratingImage :=
  { id := "p1", prompt := "sunset", workflow_id := "w1", workflow_name := "W",
    status := "completed", progress := some 100, override_params := none,
    timestamp := some 1000, imageData := some imgA }

/-- Witness for C2: with a placeholder resolved to artifact "a" and a
history page that also contains "a", the artifact renders exactly once. -/
theorem resolved_artifact_not_duplicated_witness :
    ¬ ("a" : String) ∈ (filteredImages [phResolved] [imgA, imgB]).map ImageMeta.id ∧
    (visibleArtifactIds [phResolved] [imgA, imgB]).count "a" = 1 :=
  ⟨(resolved_artifact_not_duplicated [phResolved] [imgA, imgB] "a"
      (by decide) (by decide)).1,
   (resolved_artifact_not_duplicated [phResolved] [imgA, imgB] "a"
      (by decide) (by decide)).2.1⟩

/-! ## Cold-start resume (`App.loadGeneratingImages`)

The persisted `generatingImages` snapshot is read once at start-up, failed
and stale entries are dropped, the survivors become the displayed list, and
`wsManager.connect` is called once for every survivor whose status is
`processing` or `queued`.  The staleness test is the JavaScript condition
`img.timestamp && img.timestamp < oneHourAgo`, whose first conjunct is a
truthiness test: a missing timestamp and the number `0` are both falsy. -/

/-- JavaScript truthiness of a possibly-absent number (`NaN` cannot arise
here). -/
def jsTruthyNum : Option Int → Bool
  | none => false
  | some t => !(t == 0)

/-- `App.loadGeneratingImages`, applied to the parsed persisted snapshot.
Returns the surviving placeholder list (passed to `setGeneratingImages`)
and the job ids for which `wsManager.connect` is called, in order. -/
def loadGeneratingImages (now : Int) (parsed : List GeneratingImage) :
    List GeneratingImage × List String :=
  let oneHourAgo := now - 60 * 60 * 1000
  let validImages := parsed.filter (fun img =>
    if img.status == "failed" then false
    else if jsTruthyNum img.timestamp && decide (img.timestamp.getD 0 < oneHourAgo) then false
    else true)
  (validImages,
   (validImages.filter (fun img =>
      img.status == "processing" || img.status == "queued")).map GeneratingImage.id)

/-- A persisted PROCESSING job whose timestamp is the (falsy) epoch 0. -/
def jobZeroTs : GeneratingImage :=
  { id := "p0", prompt := "x", workflow_id := "w", workflow_name := "W",
    status := "processing", progress := some 0, override_params := none,
    timestamp := some 0, imageData := none }

/-- Claim C3 counterexample: at `now = 7200000` (two hours past the epoch)
a persisted PROCESSING job with timestamp 0 is older than the one-hour
staleness ceiling, yet the truthiness test treats the 0 timestamp as
missing, so the job is kept and a channel is opened — the claimed
"dropped if and only if failed or older than the ceiling" fails. -/
theorem cold_start_zero_timestamp_kept :
    jobZeroTs.status = "processing" ∧
    jobZeroTs.timestamp = some 0 ∧
    (0 : Int) < 7200000 - 60 * 60 * 1000 ∧
    loadGeneratingImages 7200000 [jobZeroTs] = ([jobZeroTs], ["p0"]) :=
  ⟨rfl, rfl, by norm_num, rfl⟩

/-- Claim C3 amended: a persisted job is dropped (not shown, no channel
opened) iff its status is `failed` or its timestamp is present, nonzero,
and older than the one-hour staleness ceiling (a missing or zero timestamp
counts as absent and the job is kept); every surviving job whose status is
`processing` or `queued` opens exactly one channel keyed by its job id.
In particular a PROCESSING job 10 minutes old resumes exactly one channel
and a PROCESSING job 2 hours old is dropped (see the witness). -/
theorem cold_start_resume (now : Int) (parsed : List GeneratingImage)
    (hnodup : (parsed.map GeneratingImage.id).Nodup) :
    (∀ img ∈ parsed,
      (¬ img ∈ (loadGeneratingImages now parsed).1 ↔
        (img.status = "failed" ∨
          ∃ t, img.timestamp = some t ∧ ¬ t = 0 ∧ t < now - 60 * 60 * 1000)))
    ∧ (loadGeneratingImages now parsed).2 =
        (((loadGeneratingImages now parsed).1.filter (fun img =>
          img.status == "processing" || img.status == "queued")).map GeneratingImage.id)
    ∧ ∀ img ∈ (loadGeneratingImages now parsed).1,
        (img.status = "processing" ∨ img.status = "queued") →
        (loadGeneratingImages now parsed).2.count img.id = 1 := by
  have hx : (loadGeneratingImages now parsed).1 = parsed.filter (fun img =>
      if img.status == "failed" then false
      else if jsTruthyNum img.timestamp
          && decide (img.timestamp.getD 0 < now - 60 * 60 * 1000) then false
      else true) := rfl
  refine ⟨?_, rfl, ?_⟩
  · intro img hmem
    rw [hx, List.mem_filter]
    simp only [hmem, true_and]
    by_cases hf : img.status = "failed"
    · simp [hf]
    · have hf2 : (img.status == "failed") = false := by simp [hf]
      simp only [hf2, Bool.false_eq_true, if_false]
      rcases hts : img.timestamp with _ | t
      · simp [jsTruthyNum, hf]
      · simp only [jsTruthyNum, Option.getD_some]
        constructor
        · intro hn2
          by_cases hc : (!(t == 0) && decide (t < now - 60 * 60 * 1000)) = true
          · rw [Bool.and_eq_true] at hc
            refine Or.inr ⟨t, rfl, ?_, ?_⟩
            · simpa using hc.1
            · simpa using hc.2
          · rw [if_neg hc] at hn2
            exact absurd rfl hn2
        · rintro (hfail | ⟨t2, ht2, h02, hlt2⟩)
          · exact absurd hfail hf
          · have ht2e : t = t2 := Option.some.inj ht2
            subst ht2e
            have hc : (!(t == 0) && decide (t < now - 60 * 60 * 1000)) = true := by
              rw [Bool.and_eq_true]
              exact ⟨by simpa using h02, by simpa using hlt2⟩
            rw [if_pos hc]
            simp
  · intro img hmem hstat
    have hq : (img.status == "processing" || img.status == "queued") = true := by
      rcases hstat with h | h <;> simp [h]
    have hmem2 : img ∈ ((loadGeneratingImages now parsed).1.filter (fun img =>
        img.status == "processing" || img.status == "queued")) :=
      List.mem_filter.mpr ⟨hmem, hq⟩
    have hsub1 : ((loadGeneratingImages now parsed).1).Sublist parsed := by
      rw [hx]
      exact List.filter_sublist _
    have hsub : (((loadGeneratingImages now parsed).1.filter (fun img =>
        img.status == "processing" || img.status == "queued")).map GeneratingImage.id).Sublist
        (parsed.map GeneratingImage.id) :=
      List.Sublist.map _ ((List.filter_sublist _).trans hsub1)
    exact List.count_eq_one_of_mem (hnodup.sublist hsub) (List.mem_map_of_mem _ hmem2)

/-- A persisted PROCESSING job 10 minutes old at `now = 10800000`. -/
def jobTenMin : GeneratingImage :=
  { id := "jten", prompt := "x", workflow_id := "w", workflow_name := "W",
    status := "processing", progress := some 0, override_params := none,
    timestamp := some 10200000, imageData := none }

/-- A persisted PROCESSING job 2 hours old at `now = 10800000`. -/
def jobTwoHour : GeneratingImage :=
  { id := "jtwo", prompt := "x", workflow_id := "w", workflow_name := "W",
    status := "processing", progress := some 0, override_params := none,
    timestamp := some 3600000, imageData := none }

/-- Witness for the amended C3: the 10-minute-old PROCESSING job resumes
exactly one channel and the 2-hour-old one is dropped. -/
theorem cold_start_resume_witness :
    (([jobTenMin, jobTwoHour].map GeneratingImage.id).Nodup) ∧
    ¬ jobTwoHour ∈ (loadGeneratingImages 10800000 [jobTenMin, jobTwoHour]).1 ∧
    (loadGeneratingImages 10800000 [jobTenMin, jobTwoHour]).2.count "jten" = 1 :=
  ⟨by decide,
   ((cold_start_resume 10800000 [jobTenMin, jobTwoHour] (by decide)).1 jobTwoHour
      (by decide)).mpr (Or.inr ⟨3600000, rfl, by decide, by decide⟩),
   (cold_start_resume 10800000 [jobTenMin, jobTwoHour] (by decide)).2.2 jobTenMin
      (by decide) (Or.inl rfl)⟩

/-! ## Persistence of the placeholder list (`useLocalStorageSync`)

`generatingImages` is tracked by `useLocalStorageSync` without a debounce
option.  The hook loads the stored value once at mount and saves with
`localStorage.setItem` from a `useEffect` whose dependencies include the
value — i.e. the save runs after the commit of the render triggered by a
setter call, not inside the setter; the first effect run after mount is
skipped (`isInitialMount`).  The stored serialized string is represented by
its decoded value (`JSON.stringify` is injective on these lists). -/

/-- The hook's observable state: the in-memory value, the storage content,
whether a save effect is scheduled but has not run, and whether any setter
call has happened since mount. -/
structure HookState where
  value : List GeneratingImage
  stored : Option (List GeneratingImage)
  pendingEffect : Bool
  hasUpdated : Bool
deriving DecidableEq, Repr

/-- An observable event of the hook: a setter call, or the scheduled save
effect running. -/
inductive HookEvent where
  | setValue (v : List GeneratingImage)
  | runEffect
deriving DecidableEq, Repr

/-- One event of `useLocalStorageSync` for the `generatingImages` key:
`setValue` updates the in-memory value and schedules the save effect for
after the next commit; `runEffect` performs the pending
`localStorage.setItem` (a no-op when nothing is pending, matching the
skipped initial-mount effect). -/
def hookStep (s : HookState) (e : HookEvent) : HookState :=
  match e with
  | HookEvent.setValue v => { s with value := v, pendingEffect := true, hasUpdated := true }
  | HookEvent.runEffect =>
    if s.pendingEffect then { s with stored := some s.value, pendingEffect := false }
    else s

/-- The hook state right after mount and the (skipped) initial effect:
the value is loaded from storage, falling back to the initial value. -/
def hookMount (stored0 : Option (List GeneratingImage))
    (initialValue : List GeneratingImage) : HookState :=
  { value := stored0.getD initialValue, stored := stored0,
    pendingEffect := false, hasUpdated := false }

/-- A run of the hook from mount through a sequence of events. -/
def hookRun (stored0 : Option (List GeneratingImage))
    (initialValue : List GeneratingImage) (events : List HookEvent) : HookState :=
  events.foldl hookStep (hookMount stored0 initialValue)

/-- Claim C4 counterexample: immediately after a setter call — an
observable point, since the handler keeps running and the re-render commits
before effects do — the persisted snapshot still holds the pre-update
content (here: nothing), so durability lags the visible state until the
save effect runs. -/
theorem persistence_lags_counterexample :
    (hookRun none [] [HookEvent.setValue [phProcessing]]).hasUpdated = true ∧
    ¬ (hookRun none [] [HookEvent.setValue [phProcessing]]).stored
        = some (hookRun none [] [HookEvent.setValue [phProcessing]]).value := by
  constructor
  · rfl
  · intro h
    exact Option.noConfusion h

theorem hookStep_inv (s : HookState) (e : HookEvent)
    (h : s.hasUpdated = true → s.pendingEffect = false → s.stored = some s.value) :
    (hookStep s e).hasUpdated = true → (hookStep s e).pendingEffect = false →
      (hookStep s e).stored = some (hookStep s e).value := by
  cases e with
  | setValue v =>
    intro _ hp
    exact absurd hp (by simp [hookStep])
  | runEffect =>
    by_cases hp : s.pendingEffect
    · simp [hookStep, hp]
    · simp only [hookStep, hp, Bool.false_eq_true, if_false]
      intro h1 _
      exact h h1 (by simpa using hp)

/-- Claim C4 amended: every mutation of the tracked placeholder list is
persisted by a save effect scheduled with the update (write-through per
change, no debounce for this key), so whenever no save effect is pending —
in particular at event-loop quiescence — the persisted snapshot equals the
in-memory list; between a setter call and its effect run, durability lags
the visible state (see the counterexample). -/
theorem persistence_write_through (stored0 : Option (List GeneratingImage))
    (initialValue : List GeneratingImage) (events : List HookEvent)
    (hu : (hookRun stored0 initialValue events).hasUpdated = true)
    (hq : (hookRun stored0 initialValue events).pendingEffect = false) :
    (hookRun stored0 initialValue events).stored
      = some (hookRun stored0 initialValue events).value := by
  suffices h : ∀ (evs : List HookEvent) (s : HookState),
      (s.hasUpdated = true → s.pendingEffect = false → s.stored = some s.value) →
      ((evs.foldl hookStep s).hasUpdated = true →
       (evs.foldl hookStep s).pendingEffect = false →
       (evs.foldl hookStep s).stored = some (evs.foldl hookStep s).value) by
    exact h events (hookMount stored0 initialValue)
      (fun hu2 _ => absurd hu2 (by simp [hookMount])) hu hq
  intro evs
  induction evs with
  | nil => exact fun s h => h
  | cons e rest ih => exact fun s h => ih (hookStep s e) (hookStep_inv s e h)

/-- Witness for the amended C4: after an update and its effect run, the
persisted snapshot equals the in-memory list. -/
theorem persistence_write_through_witness :
    (hookRun none [] [HookEvent.setValue [phProcessing], HookEvent.runEffect]).hasUpdated = true ∧
    (hookRun none [] [HookEvent.setValue [phProcessing], HookEvent.runEffect]).stored
      = some (hookRun none [] [HookEvent.setValue [phProcessing], HookEvent.runEffect]).value :=
  ⟨rfl, persistence_write_through none [] [HookEvent.setValue [phProcessing], HookEvent.runEffect]
    rfl rfl⟩

/-! ## Progress Channel Manager (`useWebSocketManager`)

The manager owns `wsMapRef : Map<string, WebSocket>` and creates one socket
per `connect(promptId, ...)` call.  The embedding keeps an explicit table
of every socket ever created (`sockets`, keyed by a fresh handle) together
with its WebSocket `readyState`, and embeds the `Map` as an association
list.  Socket lifecycle follows the WebSocket API: a new socket starts
CONNECTING; `close()` moves a CONNECTING or OPEN socket to CLOSING and is a
no-op otherwise; the `open`/`close` events fire asynchronously
(`sockOpened` / `sockClosed` below), and `connect` only calls
`existingWs.close()` when `existingWs.readyState === WebSocket.OPEN`. -/

/-- WebSocket ready states (`opened` models `WebSocket.OPEN`). -/
inductive ReadyState where
  | connecting
  | opened
  | closing
  | closed
deriving DecidableEq, Repr, BEq

/-- One socket ever created by the manager. -/
structure Sock where
  handle : Nat
  jobId : String
  ready : ReadyState
deriving DecidableEq, Repr

/-- The manager's state: the socket table, the `wsMapRef` association
list, and the fresh-handle counter. -/
structure MgrState where
  sockets : List Sock
  wsMap : List (String × Nat)
  nextHandle : Nat
deriving DecidableEq, Repr

/-- `Map.prototype.set` (replace any existing entry for the key). -/
def alSet (m : List (String × Nat)) (k : String) (v : Nat) : List (String × Nat) :=
  (k, v) :: m.filter (fun p => !(p.1 == k))

/-- `Map.prototype.delete`. -/
def alRemove (m : List (String × Nat)) (k : String) : List (String × Nat) :=
  m.filter (fun p => !(p.1 == k))

/-- Look a socket up by handle. -/
def sockFind (sockets : List Sock) (h : Nat) : Option Sock :=
  sockets.find? (fun sk => sk.handle == h)

/-- `ws.close()` on the socket with the given handle: CONNECTING and OPEN
move to CLOSING, CLOSING and CLOSED are unaffected. -/
def jsCloseSock (sockets : List Sock) (h : Nat) : List Sock :=
  sockets.map (fun sk =>
    if sk.handle == h
        && (sk.ready == ReadyState.connecting || sk.ready == ReadyState.opened)
    then { sk with ready := ReadyState.closing } else sk)

/-- The `data` object of an inbound `progress` message. -/
structure ProgressData where
  status : Option String
  progress_percent : Option Int
  error : Option String
deriving DecidableEq, Repr

/-- A successfully parsed inbound channel message, by its `type` tag. -/
inductive WsMessage where
  | progress (data : Option ProgressData)
  | errorMsg (data : Option (Option String))
  | other
deriving DecidableEq, Repr

/-- JavaScript `x?.y || dflt` for an optional string whose empty value is
falsy. -/
def jsOrUndef (s : Option String) (dflt : String) : String :=
  match s with
  | none => dflt
  | some e => if e == "" then dflt else e

/-- An observable consequence of a manager event: a console log or one of
the `onProgress`/`onComplete`/`onError` callbacks (which are the only way
placeholder state transitions happen). -/
inductive CbAction where
  | logParseError
  | logMessage
  | onProgress (jobId : String) (data : ProgressData)
  | onComplete (jobId : String) (data : ProgressData)
  | onError (jobId : String) (errText : String)
deriving DecidableEq, Repr

/-- The events of the manager: API calls (`connect`, `disconnect`,
`disconnectAll`) and socket events (`open`, `close`, `error`, `message`
with its parse result — `none` embeds a `JSON.parse` failure). -/
inductive MgrEvent where
  | connect (jobId : String)
  | sockOpened (h : Nat)
  | sockClosed (h : Nat)
  | sockErrored (h : Nat)
  | message (h : Nat) (parsed : Option WsMessage)
  | disconnect (jobId : String)
  | disconnectAll
deriving DecidableEq, Repr

/-- The state transition of one manager event, embedded from
`useWebSocketManager`: `connect` closes the registered socket only when it
is OPEN, creates a CONNECTING socket and registers it; a socket's `close`
event marks it CLOSED and runs the `onclose` handler, which deletes the
map entry for the socket's job id (whichever handle that entry currently
holds); `disconnect` closes and deregisters; `disconnectAll` closes every
registered socket and clears the map; message and error handlers never
change the socket table or the map. -/
def mgrStep (s : MgrState) (e : MgrEvent) : MgrState :=
  match e with
  | MgrEvent.connect j =>
    let sockets1 :=
      match alGet s.wsMap j with
      | some h =>
        match sockFind s.sockets h with
        | some sk =>
          if sk.ready == ReadyState.opened then jsCloseSock s.sockets h else s.sockets
        | none => s.sockets
      | none => s.sockets
    { sockets := sockets1
        ++ [{ handle := s.nextHandle, jobId := j, ready := ReadyState.connecting }],
      wsMap := alSet s.wsMap j s.nextHandle,
      nextHandle := s.nextHandle + 1 }
  | MgrEvent.sockOpened h =>
    { s with sockets := s.sockets.map (fun sk =>
        if sk.handle == h && sk.ready == ReadyState.connecting
        then { sk with ready := ReadyState.opened } else sk) }
  | MgrEvent.sockClosed h =>
    match sockFind s.sockets h with
    | some sk =>
      if sk.ready == ReadyState.closed then s
      else
        { s with
          sockets := s.sockets.map (fun sk2 =>
            if sk2.handle == h then { sk2 with ready := ReadyState.closed } else sk2),
          wsMap := alRemove s.wsMap sk.jobId }
    | none => s
  | MgrEvent.sockErrored _ => s
  | MgrEvent.message _ _ => s
  | MgrEvent.disconnect j =>
    match alGet s.wsMap j with
    | some h =>
      { s with sockets := jsCloseSock s.sockets h, wsMap := alRemove s.wsMap j }
    | none => s
  | MgrEvent.disconnectAll =>
    { s with
      sockets := s.sockets.map (fun sk =>
        if s.wsMap.any (fun p => p.2 == sk.handle)
            && (sk.ready == ReadyState.connecting || sk.ready == ReadyState.opened)
        then { sk with ready := ReadyState.closing } else sk),
      wsMap := [] }

/-- The callbacks and logs emitted by one manager event (`ws.onmessage`
and `ws.onerror` bodies). -/
def mgrActions (s : MgrState) (e : MgrEvent) : List CbAction :=
  match e with
  | MgrEvent.message h parsed =>
    match parsed with
    | none => [CbAction.logParseError]
    | some msg =>
      match sockFind s.sockets h with
      | none => []
      | some sk =>
        match msg with
        | WsMessage.progress (some d) =>
          CbAction.logMessage :: CbAction.onProgress sk.jobId d ::
            (if d.status == some "completed" then [CbAction.onComplete sk.jobId d]
             else if d.status == some "error" then
               [CbAction.onError sk.jobId (jsOrUndef d.error "Unknown error")]
             else [])
        | WsMessage.progress none => [CbAction.logMessage]
        | WsMessage.errorMsg d =>
          [CbAction.logMessage,
           CbAction.onError sk.jobId (jsOrUndef (d.getD none) "Unknown error")]
        | WsMessage.other => [CbAction.logMessage]
  | MgrEvent.sockErrored h =>
    match sockFind s.sockets h with
    | some sk => [CbAction.onError sk.jobId "WebSocket connection error"]
    | none => []
  | _ => []

/-- The manager's start state. -/
def mgrInit : MgrState := { sockets := [], wsMap := [], nextHandle := 0 }

/-- A concrete run of the manager. -/
def mgrRun (events : List MgrEvent) : MgrState := events.foldl mgrStep mgrInit

/-- The states the manager can reach. -/
inductive MgrReachable : MgrState → Prop where
  | init : MgrReachable mgrInit
  | step (s : MgrState) (e : MgrEvent) : MgrReachable s → MgrReachable (mgrStep s e)

/-- Number of OPEN sockets for a job id. -/
def liveCount (s : MgrState) (j : String) : Nat :=
  (s.sockets.filter (fun sk => sk.jobId == j && sk.ready == ReadyState.opened)).length

theorem alSet_keys_nodup (m : List (String × Nat)) (k : String) (v : Nat)
    (h : (m.map Prod.fst).Nodup) : ((alSet m k v).map Prod.fst).Nodup := by
  unfold alSet
  rw [List.map_cons, List.nodup_cons]
  constructor
  · intro hmem
    rcases List.mem_map.mp hmem with ⟨p, hp, hpk⟩
    have hpred := (List.mem_filter.mp hp).2
    rw [hpk] at hpred
    simp at hpred
  · exact h.sublist (List.Sublist.map _ (List.filter_sublist _))

theorem alRemove_keys_nodup (m : List (String × Nat)) (k : String)
    (h : (m.map Prod.fst).Nodup) : ((alRemove m k).map Prod.fst).Nodup :=
  h.sublist (List.Sublist.map _ (List.filter_sublist _))

theorem mgr_wsMap_keys_nodup (s : MgrState) (hr : MgrReachable s) :
    (s.wsMap.map Prod.fst).Nodup := by
  induction hr with
  | init => exact List.nodup_nil
  | step s2 e hstep ih =>
    cases e with
    | connect j => exact alSet_keys_nodup _ _ _ ih
    | sockOpened h => exact ih
    | sockClosed h =>
      cases hfind : sockFind s2.sockets h with
      | none =>
        simp only [mgrStep, hfind]
        exact ih
      | some sk =>
        by_cases hcl : (sk.ready == ReadyState.closed) = true
        · simp only [mgrStep, hfind, hcl, if_true]
          exact ih
        · simp only [mgrStep, hfind]
          rw [if_neg hcl]
          exact alRemove_keys_nodup _ _ ih
    | sockErrored h => exact ih
    | message h p => exact ih
    | disconnect j =>
      cases hget : alGet s2.wsMap j with
      | none =>
        simp only [mgrStep, hget]
        exact ih
      | some h2 =>
        simp only [mgrStep, hget]
        exact alRemove_keys_nodup _ _ ih
    | disconnectAll => exact List.nodup_nil

theorem sockFind_cons_pos (x : Sock) (xs : List Sock) (h : Nat)
    (hx : (x.handle == h) = true) : sockFind (x :: xs) h = some x := by
  unfold sockFind
  simp [List.find?, hx]

theorem sockFind_cons_neg (x : Sock) (xs : List Sock) (h : Nat)
    (hx : (x.handle == h) = false) : sockFind (x :: xs) h = sockFind xs h := by
  unfold sockFind
  simp [List.find?, hx]

theorem sockFind_jsClose_opened (sockets : List Sock) (h : Nat) (sk : Sock)
    (hfind : sockFind sockets h = some sk) (hopen : sk.ready = ReadyState.opened) :
    sockFind (jsCloseSock sockets h) h = some { sk with ready := ReadyState.closing } := by
  induction sockets with
  | nil => exact absurd hfind (fun hc => Option.noConfusion hc)
  | cons a t ih =>
    cases ha : (a.handle == h) with
    | true =>
      have hsk : a = sk := by
        have h2 : some a = some sk := by
          rw [← hfind, sockFind_cons_pos a t h ha]
        exact Option.some.inj h2
      subst hsk
      have hconda : (a.handle == h
          && (a.ready == ReadyState.connecting || a.ready == ReadyState.opened)) = true := by
        rw [ha, hopen]
        rfl
      have hcons : jsCloseSock (a :: t) h
          = { a with ready := ReadyState.closing } :: jsCloseSock t h := by
        unfold jsCloseSock
        rw [List.map_cons]
        congr 1
        rw [if_pos hconda]
      rw [hcons, sockFind_cons_pos { a with ready := ReadyState.closing }
        (jsCloseSock t h) h ha]
    | false =>
      have hconda : (a.handle == h
          && (a.ready == ReadyState.connecting || a.ready == ReadyState.opened)) = false := by
        rw [ha]
        rfl
      have hcons : jsCloseSock (a :: t) h = a :: jsCloseSock t h := by
        unfold jsCloseSock
        rw [List.map_cons]
        congr 1
        rw [if_neg (fun hc => by rw [hconda] at hc; exact Bool.noConfusion hc)]
      have hrest : sockFind t h = some sk := by
        rwa [sockFind_cons_neg a t h ha] at hfind
      rw [hcons, sockFind_cons_neg _ _ _ ha]
      exact ih hrest

theorem connect_closes_opened (s : MgrState) (j : String) (h2 : Nat) (sk : Sock)
    (hmap : alGet s.wsMap j = some h2)
    (hfind : sockFind s.sockets h2 = some sk)
    (hopen : sk.ready = ReadyState.opened) :
    sockFind (mgrStep s (MgrEvent.connect j)).sockets h2
        = some { sk with ready := ReadyState.closing } ∧
    alGet (mgrStep s (MgrEvent.connect j)).wsMap j = some s.nextHandle := by
  constructor
  · have hcl := sockFind_jsClose_opened s.sockets h2 sk hfind hopen
    have hopenb : (sk.ready == ReadyState.opened) = true := by
      rw [hopen]
      rfl
    simp only [mgrStep, hmap, hfind]
    rw [if_pos hopenb]
    unfold sockFind at hcl ⊢
    rw [List.find?_append, hcl]
    rfl
  · show alGet (alSet s.wsMap j s.nextHandle) j = some s.nextHandle
    simp [alGet, alSet]

/-- A run in which `connect` is called twice for the same job id before the
first socket finishes connecting, after which both sockets reach OPEN. -/
def doubleConnectRun : MgrState :=
  mgrRun [MgrEvent.connect "job1", MgrEvent.connect "job1",
          MgrEvent.sockOpened 0, MgrEvent.sockOpened 1]

/-- Claim C1 counterexample: calling `connect` for a job id whose existing
channel is still CONNECTING does not close it (`connect` only closes when
`readyState === OPEN`), so after both sockets open, two live channels exist
for "job1" at the same instant, in a reachable manager state. -/
theorem two_live_channels_counterexample :
    MgrReachable doubleConnectRun ∧ liveCount doubleConnectRun "job1" = 2 := by
  constructor
  · have h1 := MgrReachable.step mgrInit (MgrEvent.connect "job1") MgrReachable.init
    have h2 := MgrReachable.step _ (MgrEvent.connect "job1") h1
    have h3 := MgrReachable.step _ (MgrEvent.sockOpened 0) h2
    have h4 := MgrReachable.step _ (MgrEvent.sockOpened 1) h3
    exact h4
  · rfl

/-- Claim C1 amended: the per-job channel map never associates a job id
with more than one entry (its keys are duplicate-free in every reachable
state), and `open` on a job id whose registered channel is OPEN initiates
closing of that channel before the new one is registered under the id.  An
existing channel still CONNECTING is not closed, so two live channels for
one id can momentarily coexist (see the counterexample). -/
theorem channel_manager_map_unique (s : MgrState) (hr : MgrReachable s) :
    ((s.wsMap.map Prod.fst).Nodup) ∧
    ∀ j h2 sk, alGet s.wsMap j = some h2 → sockFind s.sockets h2 = some sk →
      sk.ready = ReadyState.opened →
      sockFind (mgrStep s (MgrEvent.connect j)).sockets h2
          = some { sk with ready := ReadyState.closing } ∧
      alGet (mgrStep s (MgrEvent.connect j)).wsMap j = some s.nextHandle :=
  ⟨mgr_wsMap_keys_nodup s hr,
   fun j h2 sk hm hf ho => connect_closes_opened s j h2 sk hm hf ho⟩

/-- Witness for the amended C1: after `connect "j"` and the socket opening,
a second `connect "j"` closes the open socket and registers handle 1. -/
theorem channel_manager_map_unique_witness :
    (((mgrRun [MgrEvent.connect "j", MgrEvent.sockOpened 0]).wsMap.map Prod.fst).Nodup) ∧
    sockFind (mgrStep (mgrRun [MgrEvent.connect "j", MgrEvent.sockOpened 0])
        (MgrEvent.connect "j")).sockets 0
      = some { handle := 0, jobId := "j", ready := ReadyState.closing } := by
  have hr : MgrReachable (mgrRun [MgrEvent.connect "j", MgrEvent.sockOpened 0]) := by
    have h1 := MgrReachable.step mgrInit (MgrEvent.connect "j") MgrReachable.init
    exact MgrReachable.step _ (MgrEvent.sockOpened 0) h1
  have h := channel_manager_map_unique (mgrRun [MgrEvent.connect "j", MgrEvent.sockOpened 0]) hr
  exact ⟨h.1, (h.2 "j" 0 { handle := 0, jobId := "j", ready := ReadyState.opened }
    rfl rfl rfl).1⟩

/-- Claim C7: an inbound channel message whose payload fails to parse is
logged and otherwise ignored — no progress, completion or error callback is
invoked (so no placeholder transition can occur), and the manager state,
including every socket's ready state and the channel map, is unchanged (the
channel stays open). -/
theorem malformed_payload_ignored (s : MgrState) (h2 : Nat) :
    mgrStep s (MgrEvent.message h2 none) = s ∧
    mgrActions s (MgrEvent.message h2 none) = [CbAction.logParseError] ∧
    ∀ a ∈ mgrActions s (MgrEvent.message h2 none),
      (∀ j d, ¬ a = CbAction.onProgress j d) ∧
      (∀ j d, ¬ a = CbAction.onComplete j d) ∧
      (∀ j e2, ¬ a = CbAction.onError j e2) := by
  refine ⟨rfl, rfl, ?_⟩
  intro a ha
  have ha2 : a ∈ [CbAction.logParseError] := ha
  have haeq : a = CbAction.logParseError := by simpa using ha2
  subst haeq
  exact ⟨fun j d hc => CbAction.noConfusion hc,
         fun j d hc => CbAction.noConfusion hc,
         fun j e2 hc => CbAction.noConfusion hc⟩

end ComfyWUI
